import Mathlib

/-!
Verification of the Azure DevOps helper scripts
(`get_team_prs.py`, `get_sprint_work_items.py`, `get_pr_diff.py`).

The HTTP transport, JSON decoding and CLI parsing are external collaborators;
they are modelled as backend structures whose fields return `Except ApiError`
values (an aborting `api_request` — one that prints an error and calls
`sys.exit(1)` — is modelled by propagating the error through the `Except`
monad, which stops the rest of the run exactly as the process exit does).
Timestamp parsing (`datetime.fromisoformat`) is modelled by an abstract
parameter `parseIso : String → Option Int` giving a POSIX timestamp in
seconds; `timedelta.days` is floor division by 86400 (`Int.fdiv`).
-/

/-- HTTP-level error payload: status code and reason, as produced by the
scripts' `api_request` error paths. -/
structure ApiError where
  status : Nat
  message : String
deriving DecidableEq

/-- The single-quote character `'` (written via its code point so that the
WIQL quoting logic is explicit about the character involved). -/
def sqChar : Char := Char.ofNat 39

/-- The single-quote character as a one-character string. -/
def sqCharStr : String := String.singleton sqChar

/-- Python truthiness of an optional string (`if x:` is false for `None`
and for the empty string). -/
def strOptTruthy : Option String → Bool
  | none => false
  | some s => !(s == "")

/-- `charsStartWith s pat`: the char list `s` starts with `pat`. -/
def charsStartWith : List Char → List Char → Bool
  | _, [] => true
  | [], _ :: _ => false
  | c :: cs, p :: ps => c == p && charsStartWith cs ps

/-- `charsContain pat s`: `pat` occurs contiguously somewhere in `s`. -/
def charsContain (pat : List Char) : List Char → Bool
  | [] => charsStartWith [] pat
  | c :: cs => charsStartWith (c :: cs) pat || charsContain pat cs

/-- `strContains s pat`: `pat` occurs as a substring of `s`. -/
def strContains (s pat : String) : Bool := charsContain pat.data s.data

/-- Python `str.lower()`, modelled characterwise (the identifiers and
values the scripts lower-case are ASCII). -/
def strLower (s : String) : String := ⟨s.data.map Char.toLower⟩

/-- Python `str.replace(pat, rep)`: replace non-overlapping occurrences
left to right.  The fuel (initialised to the string length, an upper bound
on the number of steps) makes the recursion structural; an empty pattern
leaves the string unchanged (the scripts only pass non-empty patterns). -/
def replaceGo (pat rep : List Char) : Nat → List Char → List Char
  | _, [] => []
  | 0, l => l
  | fuel + 1, c :: cs =>
    if charsStartWith (c :: cs) pat then
      rep ++ replaceGo pat rep fuel ((c :: cs).drop pat.length)
    else c :: replaceGo pat rep fuel cs

/-- Python `str.replace` on strings. -/
def replaceStr (s pat rep : String) : String :=
  if pat.data.isEmpty then s
  else ⟨replaceGo pat.data rep.data s.data.length s.data⟩

/-! ## get_team_prs.py -/

/-- One entry of a pull request's `reviewers` list (the fields the script
reads; a missing `id` decodes to `""`). -/
structure Reviewer where
  id : String
  displayName : String
  vote : Int
  isRequired : Bool
deriving DecidableEq

/-- A raw pull request as decoded from the wire (the fields the script
reads; optional wire fields are `Option`). -/
structure PullRequest where
  pullRequestId : Nat
  title : String
  description : String
  createdById : String
  createdByName : String
  createdByEmail : String
  status : String
  sourceRefName : String
  targetRefName : String
  creationDate : Option String
  isDraft : Bool
  reviewers : List Reviewer
deriving DecidableEq

/-- A repository record (`id` and `name` are the fields the script reads). -/
structure Repo where
  id : String
  name : String
deriving DecidableEq

/-- `filter_prs_by_reviewer`: keep the PRs having some reviewer whose
lower-cased id is among the lower-cased filter ids (`{team_id.lower()}`
plus `user_id.lower()` when `user_id` is truthy).  The Python inner loop
appends the PR at the first matching reviewer and breaks, i.e. it keeps
the PR iff some reviewer matches. -/
def filter_prs_by_reviewer (prs : List PullRequest) (team_id : String)
    (user_id : Option String) : List PullRequest :=
  let reviewer_ids : List String :=
    match user_id with
    | some u => if u == "" then [strLower team_id] else [strLower team_id, strLower u]
    | none => [strLower team_id]
  prs.filter (fun pr => pr.reviewers.any (fun r => reviewer_ids.contains (strLower r.id)))

/-- `calculate_age_days`: `0` for a missing/empty date string, otherwise
parse (after the `"Z" → "+00:00"` replacement) and take whole days of
`now - created`; a string the parser rejects raises (`Except.error`). -/
def calculate_age_days (parseIso : String → Option Int) (now : Int)
    (date_str : Option String) : Except String Int :=
  match date_str with
  | none => .ok 0
  | some s =>
    if s == "" then .ok 0
    else
      match parseIso (replaceStr s "Z" "+00:00") with
      | none => .error "invalid isoformat string"
      | some created => .ok (Int.fdiv (now - created) 86400)

/-- Reviewer entry of the formatted output. -/
structure FormattedReviewer where
  name : String
  vote : Int
  isRequired : Bool
deriving DecidableEq

/-- `format_pr`'s output shape (the derived fields the script emits). -/
structure FormattedPR where
  id : Nat
  repository : String
  title : String
  description : String
  author : String
  authorEmail : String
  status : String
  sourceBranch : String
  targetBranch : String
  createdDate : Option String
  ageDays : Int
  isDraft : Bool
  reviewers : List FormattedReviewer
deriving DecidableEq

/-- `format_pr`: project a raw PR to the output shape; an exception from
`calculate_age_days` propagates. -/
def format_pr (parseIso : String → Option Int) (now : Int)
    (pr : PullRequest) (repo_name : String) : Except String FormattedPR := do
  let age ← calculate_age_days parseIso now pr.creationDate
  pure
    { id := pr.pullRequestId
      repository := repo_name
      title := pr.title
      description := pr.description
      author := pr.createdByName
      authorEmail := pr.createdByEmail
      status := pr.status
      sourceBranch := replaceStr pr.sourceRefName "refs/heads/" ""
      targetBranch := replaceStr pr.targetRefName "refs/heads/" ""
      createdDate := pr.creationDate
      ageDays := age
      isDraft := pr.isDraft
      reviewers := pr.reviewers.map (fun r =>
        { name := r.displayName, vote := r.vote, isRequired := r.isRequired }) }

/-- Errors that terminate a run (each corresponds to a
`print(json.dumps({"error": True, ...})); sys.exit(1)` site or an uncaught
exception). -/
inductive RunError where
  | notConfigured : RunError
  | api : ApiError → RunError
  | exc : String → RunError
  | noCurrentIteration : String → RunError
  | noIterations : RunError
  | fileNotFound : String → RunError
deriving DecidableEq

/-- The external service as seen by `get_team_prs.py`: the repository list
of the project and, per repository id and status filter, its pull
requests.  An `Except.error` models an HTTP failure of that call (which
`api_request` turns into `sys.exit(1)`). -/
structure PrBackend where
  repositories : Except ApiError (List Repo)
  pullRequests : String → String → Except ApiError (List PullRequest)

/-- CLI arguments of `get_team_prs.py`. -/
structure TeamPrsArgs where
  org : String
  project : String
  team_id : String
  user_id : Option String
  status : String
  exclude_author : Option String

/-- Output shape of `get_team_prs.py`. -/
structure TeamPrsOutput where
  count : Nat
  pullRequests : List FormattedPR
deriving DecidableEq

/-- The inner `for pr in filtered_prs` loop: format each PR, any exception
aborting the run. -/
def format_all (parseIso : String → Option Int) (now : Int) (repo_name : String) :
    List PullRequest → Except RunError (List FormattedPR)
  | [] => .ok []
  | pr :: rest =>
    match format_pr parseIso now pr repo_name with
    | .error e => .error (.exc e)
    | .ok f =>
      match format_all parseIso now repo_name rest with
      | .error e => .error e
      | .ok fs => .ok (f :: fs)

/-- `if args.exclude_author: filtered_prs = [pr for pr in filtered_prs if
pr.createdBy.id.lower() != exclude_author.lower()]` — drop PRs created by
the excluded author (a falsy value disables the filter). -/
def exclude_by_author (exclude_author : Option String) (prs : List PullRequest) :
    List PullRequest :=
  match exclude_author with
  | some ex =>
    if ex == "" then prs
    else prs.filter (fun pr => !(strLower pr.createdById == strLower ex))
  | none => prs

/-- The `for repo in repos` loop of `main`: fetch the repo's PRs (an HTTP
error exits the process, i.e. aborts the whole computation), filter by
reviewer, optionally drop PRs by the excluded author, format, and continue
with the remaining repositories. -/
def process_repos (parseIso : String → Option Int) (now : Int)
    (b : PrBackend) (a : TeamPrsArgs) : List Repo → Except RunError (List FormattedPR)
  | [] => .ok []
  | repo :: rest =>
    match b.pullRequests repo.id a.status with
    | .error e => .error (.api e)
    | .ok prs =>
      match format_all parseIso now repo.name
          (exclude_by_author a.exclude_author
            (filter_prs_by_reviewer prs a.team_id a.user_id)) with
      | .error e => .error e
      | .ok formatted =>
        match process_repos parseIso now b a rest with
        | .error e => .error e
        | .ok restPrs => .ok (formatted ++ restPrs)

/-- `all_prs.sort(key=lambda x: x["ageDays"], reverse=True)`: stable sort,
oldest (largest age) first. -/
def sortByAgeDesc (l : List FormattedPR) : List FormattedPR :=
  l.mergeSort (fun x y => decide (y.ageDays ≤ x.ageDays))

/-- `main` of `get_team_prs.py`: credential gate, then fetch repositories,
process each repository in order, sort by age descending and emit the
output payload. -/
def get_team_prs_main (parseIso : String → Option Int) (now : Int)
    (pat : Option String) (b : PrBackend) (a : TeamPrsArgs) :
    Except RunError TeamPrsOutput :=
  if strOptTruthy pat = false then .error .notConfigured
  else
    match b.repositories with
    | .error e => .error (.api e)
    | .ok repos =>
      match process_repos parseIso now b a repos with
      | .error e => .error e
      | .ok all =>
        let sorted := sortByAgeDesc all
        .ok { count := sorted.length, pullRequests := sorted }

/-! ## get_sprint_work_items.py -/

/-- The fields of a work item record the script reads.  `assignedTo`
models `fields.get("System.AssignedTo", {})`: `none` when absent or null,
`some d` for a person dict whose optional `displayName` is `d`. -/
structure WorkItemFields where
  title : String
  state : String
  workItemType : String
  assignedTo : Option (Option String)
  effort : Option Int
  priority : Option Int
  changedDate : String
deriving DecidableEq

/-- A raw work item: id plus its `fields` dict. -/
structure WorkItem where
  id : Nat
  fields : WorkItemFields
deriving DecidableEq

/-- A team iteration record (`name` and `path` are the fields read). -/
structure IterationRec where
  name : String
  path : String
deriving DecidableEq

/-- `f"'{x}'"`: wrap a value in single quotes, with no escaping of quotes
inside the value. -/
def quoteLit (v : String) : String := sqCharStr ++ v ++ sqCharStr

/-- The WHERE clauses built by `query_work_items`, in order: project,
area path (`{project}\{team}`), iteration path, work-item types (default
`Product Backlog Item`/`Spike` when the list is `None` or empty), then
optionally states, then `unassigned` / `elif assigned_to`. -/
def buildWhereClauses (project team iteration_path : String)
    (states : Option (List String)) (unassigned : Bool)
    (assigned_to : Option String) (work_item_types : Option (List String)) :
    List String :=
  let area_path := project ++ "\\" ++ team
  let types : List String :=
    match work_item_types with
    | none => ["Product Backlog Item", "Spike"]
    | some [] => ["Product Backlog Item", "Spike"]
    | some ts => ts
  let types_clause := String.intercalate ", " (types.map quoteLit)
  let base : List String :=
    [ "[System.TeamProject] = " ++ quoteLit project,
      "[System.AreaPath] UNDER " ++ quoteLit area_path,
      "[System.IterationPath] = " ++ quoteLit iteration_path,
      "[System.WorkItemType] IN (" ++ types_clause ++ ")" ]
  let base : List String :=
    match states with
    | none => base
    | some [] => base
    | some ss =>
      base ++ ["[System.State] IN (" ++
        String.intercalate ", " (ss.map quoteLit) ++ ")"]
  if unassigned then
    base ++ ["([System.AssignedTo] = " ++ sqCharStr ++ sqCharStr ++
      " OR [System.AssignedTo] IS NULL)"]
  else
    match assigned_to with
    | some a => if a == "" then base else base ++ ["[System.AssignedTo] = " ++ quoteLit a]
    | none => base

/-- The fixed SELECT/FROM/WHERE head of the WIQL f-string. -/
def wiqlHead : String :=
  "\n        SELECT [System.Id], [System.Title], [System.State], [System.WorkItemType],\n               [System.AssignedTo], [Microsoft.VSTS.Scheduling.Effort],\n               [Microsoft.VSTS.Common.BacklogPriority], [System.ChangedDate]\n        FROM WorkItems\n        WHERE "

/-- The fixed tail of the WIQL f-string: the entire ORDER BY clause the
script emits. -/
def wiqlOrderBySuffix : String :=
  "\n        ORDER BY [Microsoft.VSTS.Common.BacklogPriority] ASC\n    "

/-- The full WIQL text `query_work_items` sends. -/
def buildWiql (project team iteration_path : String)
    (states : Option (List String)) (unassigned : Bool)
    (assigned_to : Option String) (work_item_types : Option (List String)) :
    String :=
  wiqlHead ++
    String.intercalate " AND "
      (buildWhereClauses project team iteration_path states unassigned
        assigned_to work_item_types) ++
    wiqlOrderBySuffix

/-- `for i in range(0, len(ids), 200): ids[i:i+200]` — split into slices
of at most 200, structurally recursing on a fuel initialised to the list
length (each iteration consumes 200 elements, so the fuel never runs out). -/
def chunkGo (fuel : Nat) (l : List Nat) : List (List Nat) :=
  match fuel, l with
  | _, [] => []
  | 0, _ => []
  | fuel + 1, l => l.take 200 :: chunkGo fuel (l.drop 200)

/-- The chunk requests the batch loop issues for an id list. -/
def chunkList (ids : List Nat) : List (List Nat) := chunkGo ids.length ids

/-- The external service as seen by `get_sprint_work_items.py`.
`currentIterations` is the team-settings iterations call; `wiqlPost` maps
the posted WIQL text to the returned work-item references; the batch GET
for a chunk of ids either fails with `chunkErr` or returns the records of
the ids that still exist in `db` (the backend returns at most one record
per requested id and drops missing ids silently). -/
structure SprintBackend where
  currentIterations : Except ApiError (List IterationRec)
  wiqlPost : String → Except ApiError (List Nat)
  db : Nat → Option WorkItem
  chunkErr : List Nat → Option ApiError

/-- One batch GET `workitems?ids=...`: transport failure or the records
of the requested ids that exist. -/
def workItemsBatch (b : SprintBackend) (ids : List Nat) :
    Except ApiError (List WorkItem) :=
  match b.chunkErr ids with
  | some e => .error e
  | none => .ok (ids.filterMap b.db)

/-- The batch-fetch loop of `query_work_items`: for each chunk, issue the
request; `if not batch_result.get("error"): work_items.extend(...)` — a
failed chunk is skipped and the loop continues. -/
def fetch_work_items (b : SprintBackend) (ids : List Nat) : List WorkItem :=
  (chunkList ids).foldl
    (fun acc c =>
      match workItemsBatch b c with
      | .ok v => acc ++ v
      | .error _ => acc)
    []

/-- `get_current_iteration`: an HTTP error yields `None`; otherwise the
first returned iteration, or `None` when there is none. -/
def get_current_iteration (b : SprintBackend) : Option IterationRec :=
  match b.currentIterations with
  | .error _ => none
  | .ok its => its.head?

/-- `query_work_items`: build the WIQL, post it (`[]` on error), stop on
an empty reference list, else batch-fetch the full records. -/
def query_work_items (b : SprintBackend) (project team iteration_path : String)
    (states : Option (List String)) (unassigned : Bool)
    (assigned_to : Option String) (work_item_types : Option (List String)) :
    List WorkItem :=
  let wiql := buildWiql project team iteration_path states unassigned
    assigned_to work_item_types
  match b.wiqlPost wiql with
  | .error _ => []
  | .ok refs => if refs.isEmpty then [] else fetch_work_items b refs

/-- `fields.get("System.AssignedTo", {})` handling in `format_work_item`:
a person dict yields its `displayName` (default `"Unassigned"`); an
absent/null value yields `"Unassigned"`. -/
def assignedName : Option (Option String) → String
  | none => "Unassigned"
  | some none => "Unassigned"
  | some (some n) => n

/-- The `days_since_change` computation inside `format_work_item`: `None`
for an empty date string, `None` when parsing fails (the `try/except`
swallows the error), else whole days since the change. -/
def days_since_change (parseIso : String → Option Int) (now : Int)
    (changed_date_str : String) : Option Int :=
  if changed_date_str == "" then none
  else
    match parseIso (replaceStr changed_date_str "Z" "+00:00") with
    | none => none
    | some changed => some (Int.fdiv (now - changed) 86400)

/-- `format_work_item`'s output shape. -/
structure FormattedWorkItem where
  id : Nat
  type : String
  title : String
  state : String
  assignedTo : String
  effort : Option Int
  priority : Option Int
  daysSinceChange : Option Int
  webUrl : String
deriving DecidableEq

/-- `format_work_item`: project a raw work item to the output shape. -/
def format_work_item (parseIso : String → Option Int) (now : Int)
    (org project : String) (wi : WorkItem) : FormattedWorkItem :=
  { id := wi.id
    type := wi.fields.workItemType
    title := wi.fields.title
    state := wi.fields.state
    assignedTo := assignedName wi.fields.assignedTo
    effort := wi.fields.effort
    priority := wi.fields.priority
    daysSinceChange := days_since_change parseIso now wi.fields.changedDate
    webUrl := "https://dev.azure.com/" ++ org ++ "/" ++ project ++
      "/_workitems/edit/" ++ toString wi.id }

/-- CLI arguments of `get_sprint_work_items.py`. -/
structure SprintArgs where
  org : String
  project : String
  team : String
  states : Option (List String)
  unassigned : Bool
  assigned_to : Option String
  work_item_types : Option (List String)

/-- Output shape of `get_sprint_work_items.py`. -/
structure SprintOutput where
  iterationName : String
  iterationPath : String
  team : String
  areaPath : String
  count : Nat
  workItems : List FormattedWorkItem
deriving DecidableEq

/-- `main` of `get_sprint_work_items.py`: credential gate, current
iteration (exit when absent), query, format, emit. -/
def get_sprint_work_items_main (parseIso : String → Option Int) (now : Int)
    (pat : Option String) (b : SprintBackend) (a : SprintArgs) :
    Except RunError SprintOutput :=
  if strOptTruthy pat = false then .error .notConfigured
  else
    match get_current_iteration b with
    | none => .error (.noCurrentIteration a.team)
    | some it =>
      let items := query_work_items b a.project a.team it.path a.states
        a.unassigned a.assigned_to a.work_item_types
      let formatted := items.map (format_work_item parseIso now a.org a.project)
      .ok
        { iterationName := it.name
          iterationPath := it.path
          team := a.team
          areaPath := a.project ++ "\\" ++ a.team
          count := formatted.length
          workItems := formatted }

/-! ## get_pr_diff.py -/

/-- The PR-details fields `get_pr_diff.py` reads. -/
structure PrDetails where
  pullRequestId : Nat
  title : String
  description : String
  authorName : Option String
  sourceRefName : String
  targetRefName : String
  status : String
  isDraft : Bool
  lastMergeSourceCommit : Option String
  lastMergeTargetCommit : Option String
deriving DecidableEq

/-- One entry of an iteration's `changeEntries` (path and change type). -/
structure ChangeEntry where
  path : String
  changeType : String
deriving DecidableEq

/-- The commit-diff summary fields read (`aheadCount`, `behindCount`). -/
structure DiffSummary where
  aheadCount : Nat
  behindCount : Nat
deriving DecidableEq

/-- The external service as seen by `get_pr_diff.py`.  `fileContent`
models `get_file_content` (commit, path): it catches the exit on HTTP
error and returns `None` for a file absent at that commit, so it is total. -/
structure PrDiffBackend where
  prDetails : Except ApiError PrDetails
  iterations : Except ApiError (List Nat)
  iterationChanges : Nat → Except ApiError (List ChangeEntry)
  commitDiffs : String → String → Except ApiError DiffSummary
  fileContent : String → String → Option String

/-- CLI arguments of `get_pr_diff.py`. -/
structure PrDiffArgs where
  org : String
  project : String
  repo : String
  pr_id : Nat
  file : Option String
  include_content : Bool

/-- `format_change_type`: map raw change types to display names, leaving
unknown values untouched. -/
def format_change_type (ct : String) : String :=
  if ct == "add" then "Added"
  else if ct == "edit" then "Modified"
  else if ct == "delete" then "Deleted"
  else if ct == "rename" then "Renamed"
  else if ct == "sourceRename" then "Renamed (source)"
  else if ct == "targetRename" then "Renamed (target)"
  else ct

/-- One entry of the `changedFiles` output; the `content` keys are only
present (outer `Option`) when content was requested, and the inner
`Option` is the possibly-absent file content. -/
structure ChangedFile where
  path : String
  changeType : String
  content : Option (Option String)
  originalContent : Option (Option String)
deriving DecidableEq

/-- Output shape of `get_pr_diff.py`. -/
structure PrDiffOutput where
  prId : Nat
  prTitle : String
  sourceBranch : String
  targetBranch : String
  sourceCommit : Option String
  targetCommit : Option String
  totalFiles : Nat
  additions : Nat
  deletions : Nat
  changedFiles : List ChangedFile
deriving DecidableEq

/-- The per-change formatting loop of `get_pr_diff.py`'s `main`: build the
file info, attaching content when `--include-content` is set or the entry
is the requested file. -/
def build_changed_file (b : PrDiffBackend) (a : PrDiffArgs)
    (srcCommit tgtCommit : Option String) (change : ChangeEntry) : ChangedFile :=
  let base : ChangedFile :=
    { path := change.path
      changeType := format_change_type change.changeType
      content := none
      originalContent := none }
  if a.include_content || (strOptTruthy a.file && (a.file == some change.path)) then
    let base :=
      match srcCommit with
      | some sc =>
        if sc == "" then base
        else { base with content := some (b.fileContent sc change.path) }
      | none => base
    match tgtCommit with
    | some tc =>
      if tc == "" then base
      else if change.changeType == "edit" || change.changeType == "delete" then
        { base with originalContent := some (b.fileContent tc change.path) }
      else base
    | none => base
  else base

/-- `main` of `get_pr_diff.py`: credential gate, PR details, iterations
(exit when empty), changes of the latest iteration, optional commit-diff
summary, per-change formatting, optional single-file filter (exit when
the file is not among the changes), and the output payload. -/
def get_pr_diff_main (pat : Option String) (b : PrDiffBackend)
    (a : PrDiffArgs) : Except RunError PrDiffOutput :=
  if strOptTruthy pat = false then .error .notConfigured
  else do
    let pr ← b.prDetails.mapError RunError.api
    let its ← b.iterations.mapError RunError.api
    match its.getLast? with
    | none => .error .noIterations
    | some iteration_id => do
      let changes ← (b.iterationChanges iteration_id).mapError RunError.api
      let diff_summary ←
        match pr.lastMergeSourceCommit, pr.lastMergeTargetCommit with
        | some sc, some tc =>
          if sc == "" || tc == "" then pure (none : Option DiffSummary)
          else do
            let d ← (b.commitDiffs tc sc).mapError RunError.api
            pure (some d)
        | _, _ => pure none
      let changed_files := changes.map
        (build_changed_file b a pr.lastMergeSourceCommit pr.lastMergeTargetCommit)
      let changed_files ←
        match a.file with
        | some f =>
          if f == "" then pure changed_files
          else
            let cf := changed_files.filter (fun x => x.path == f)
            if cf.isEmpty then Except.error (RunError.fileNotFound f) else pure cf
        | none => pure changed_files
      pure
        { prId := pr.pullRequestId
          prTitle := pr.title
          sourceBranch := replaceStr pr.sourceRefName "refs/heads/" ""
          targetBranch := replaceStr pr.targetRefName "refs/heads/" ""
          sourceCommit := pr.lastMergeSourceCommit
          targetCommit := pr.lastMergeTargetCommit
          totalFiles := changed_files.length
          additions := (diff_summary.map DiffSummary.aheadCount).getD 0
          deletions := (diff_summary.map DiffSummary.behindCount).getD 0
          changedFiles := changed_files }

/-! ## WIQL literal well-formedness -/

/-- Scanner for the body of a single-quoted WIQL literal, entered just
after the opening quote: a quote followed by nothing closes the literal;
a doubled quote is the escaped quote; an early close followed by trailing
characters is malformed. -/
def scanQuoted : List Char → Bool
  | [] => false
  | c :: rest =>
    if c == sqChar then
      match rest with
      | [] => true
      | c2 :: rest2 => c2 == sqChar && scanQuoted rest2
    else scanQuoted rest

/-- A char list is a single well-formed single-quoted WIQL literal:
opening quote, body with quotes escaped by doubling, closing quote at the
very end. -/
def isWellFormedLiteral : List Char → Bool
  | c :: rest => c == sqChar && scanQuoted rest
  | [] => false

/-! ## Concrete instances used in witnesses and counterexamples -/

/-- A timestamp parser stub for records whose date fields are absent. -/
def pfNone : String → Option Int := fun _ => none

/-- A reviewer with an upper-case id. -/
def c1Reviewer : Reviewer :=
  { id := "TEAM-1", displayName := "Team One", vote := 0, isRequired := true }

/-- A pull request (id `n`) reviewed by `c1Reviewer`. -/
def c1Pr (n : Nat) : PullRequest :=
  { pullRequestId := n
    title := "change"
    description := ""
    createdById := "author-guid"
    createdByName := "Author"
    createdByEmail := "author@example.com"
    status := "active"
    sourceRefName := "refs/heads/feature"
    targetRefName := "refs/heads/main"
    creationDate := none
    isDraft := false
    reviewers := [c1Reviewer] }

/-- Scenario B backend: three repositories, the second of which fails the
pull-request query; the first and third have one matching PR each. -/
def c1Backend : PrBackend :=
  { repositories := .ok [⟨"r1", "repo1"⟩, ⟨"r2", "repo2"⟩, ⟨"r3", "repo3"⟩]
    pullRequests := fun rid _ =>
      if rid == "r2" then .error ⟨500, "boom"⟩
      else if rid == "r1" then .ok [c1Pr 1]
      else .ok [c1Pr 3] }

/-- Arguments for the Scenario B run (team id matching `c1Reviewer` up to
case). -/
def c1Args : TeamPrsArgs :=
  { org := "org", project := "proj", team_id := "team-1", user_id := none
    status := "active", exclude_author := none }

/-- A work item whose only purpose is to be fetched by id. -/
def c2wi (n : Nat) : WorkItem :=
  { id := n
    fields :=
      { title := "item", state := "New", workItemType := "Product Backlog Item"
        assignedTo := none, effort := none, priority := none, changedDate := "" } }

/-- Batch backend in which every 200-id chunk request fails while smaller
chunks succeed, and every id exists. -/
def c2Backend : SprintBackend :=
  { currentIterations := .ok []
    wiqlPost := fun _ => .ok []
    db := fun n => some (c2wi n)
    chunkErr := fun c => if c.length == 200 then some ⟨503, "batch failed"⟩ else none }

/-- A work item returned for the Scenario D query. -/
def c3wi : WorkItem :=
  { id := 1
    fields :=
      { title := "Fix", state := "New", workItemType := "Product Backlog Item"
        assignedTo := none, effort := none, priority := none, changedDate := "" } }

/-- Backend that answers any WIQL post with one work-item reference and
serves its record, so a run that reaches the query visibly returns data. -/
def c3Backend : SprintBackend :=
  { currentIterations := .ok [⟨"Sprint 1", "proj\\Sprint 1"⟩]
    wiqlPost := fun _ => .ok [1]
    db := fun n => if n == 1 then some c3wi else none
    chunkErr := fun _ => none }

/-- A value containing a single-quote character (`O'Brien`). -/
def oBrien : String := "O" ++ sqCharStr ++ "Brien"

/-- A work item with no `System.ChangedDate` value. -/
def c7wi : WorkItem :=
  { id := 7
    fields :=
      { title := "Task", state := "New", workItemType := "Spike"
        assignedTo := none, effort := none, priority := none, changedDate := "" } }

/-- A pull request whose reviewer id is upper-case `ABC-123`. -/
def c9pr : PullRequest :=
  { pullRequestId := 9
    title := "case test"
    description := ""
    createdById := "someone"
    createdByName := "Someone"
    createdByEmail := "s@example.com"
    status := "active"
    sourceRefName := "refs/heads/x"
    targetRefName := "refs/heads/main"
    creationDate := none
    isDraft := false
    reviewers := [{ id := "ABC-123", displayName := "Rev", vote := 0, isRequired := false }] }

/-! ## Helper lemmas -/

lemma process_repos_ok (pf : String → Option Int) (now : Int) (b : PrBackend)
    (a : TeamPrsArgs) :
    ∀ (repos : List Repo) (out : List FormattedPR),
      process_repos pf now b a repos = .ok out →
      ∀ r ∈ repos, ∃ prs, b.pullRequests r.id a.status = .ok prs := by
  intro repos
  induction repos with
  | nil => intro out _ r hr; simp at hr
  | cons repo rest ih =>
    intro out h r hr
    cases hPR : b.pullRequests repo.id a.status with
    | error e =>
      rw [process_repos.eq_def] at h
      simp only [hPR] at h
      exact Except.noConfusion h
    | ok prs =>
      rw [process_repos.eq_def] at h
      simp only [hPR] at h
      rcases List.mem_cons.mp hr with rfl | hr2
      · exact ⟨prs, hPR⟩
      · cases hF : format_all pf now repo.name
            (exclude_by_author a.exclude_author
              (filter_prs_by_reviewer prs a.team_id a.user_id)) with
        | error e => rw [hF] at h; simp at h
        | ok formatted =>
          rw [hF] at h
          cases hrest : process_repos pf now b a rest with
          | error e => rw [hrest] at h; simp at h
          | ok restPrs => exact ih restPrs hrest r hr2

lemma process_repos_error (pf : String → Option Int) (now : Int) (b : PrBackend)
    (a : TeamPrsArgs) (repos : List Repo)
    (hfail : ∃ r ∈ repos, ∃ e, b.pullRequests r.id a.status = .error e) :
    ∃ err, process_repos pf now b a repos = .error err := by
  cases hres : process_repos pf now b a repos with
  | error err => exact ⟨err, rfl⟩
  | ok out =>
    exfalso
    obtain ⟨r, hr, e, he⟩ := hfail
    obtain ⟨prs, hok⟩ := process_repos_ok pf now b a repos out hres r hr
    rw [hok] at he
    cases he

lemma chunkGo_length : ∀ (fuel : Nat) (l : List Nat), l.length ≤ fuel →
    (chunkGo fuel l).length = (l.length + 199) / 200 := by
  intro fuel
  induction fuel with
  | zero =>
    intro l h
    cases l with
    | nil => simp [chunkGo]
    | cons x xs => simp at h
  | succ n ih =>
    intro l h
    cases l with
    | nil => simp [chunkGo]
    | cons x xs =>
      have hd : ((x :: xs).drop 200).length ≤ n := by
        rw [List.length_drop]; simp at h ⊢; omega
      have := ih _ hd
      simp only [chunkGo, List.length_cons, this, List.length_drop]
      simp at h ⊢
      omega

lemma chunkGo_all_le : ∀ (fuel : Nat) (l : List Nat),
    (chunkGo fuel l).all (fun c => decide (c.length ≤ 200)) = true := by
  intro fuel
  induction fuel with
  | zero => intro l; cases l <;> simp [chunkGo]
  | succ n ih =>
    intro l
    cases l with
    | nil => simp [chunkGo]
    | cons x xs =>
      simp only [chunkGo, List.all_cons, ih, Bool.and_true]
      simp [List.length_take]

lemma chunkGo_flatten : ∀ (fuel : Nat) (l : List Nat), l.length ≤ fuel →
    (chunkGo fuel l).flatten = l := by
  intro fuel
  induction fuel with
  | zero =>
    intro l h
    cases l with
    | nil => simp [chunkGo]
    | cons x xs => simp at h
  | succ n ih =>
    intro l h
    cases l with
    | nil => simp [chunkGo]
    | cons x xs =>
      have hd : ((x :: xs).drop 200).length ≤ n := by
        rw [List.length_drop]; simp at h ⊢; omega
      simp only [chunkGo, List.flatten_cons, ih _ hd, List.take_append_drop]

lemma fetch_aux (b : SprintBackend) :
    ∀ (chunks : List (List Nat)) (acc : List WorkItem),
      chunks.foldl
        (fun acc c =>
          match workItemsBatch b c with
          | .ok v => acc ++ v
          | .error _ => acc) acc
      = acc ++ ((chunks.filter (fun c => (b.chunkErr c).isNone)).map
          (fun c => c.filterMap b.db)).flatten := by
  intro chunks
  induction chunks with
  | nil => intro acc; simp
  | cons c cs ih =>
    intro acc
    simp only [List.foldl_cons]
    cases hc : b.chunkErr c with
    | some e =>
      rw [show (match workItemsBatch b c with
          | .ok v => acc ++ v
          | .error _ => acc) = acc from by simp [workItemsBatch, hc]]
      rw [ih]
      simp [List.filter_cons, hc]
    | none =>
      rw [show (match workItemsBatch b c with
          | .ok v => acc ++ v
          | .error _ => acc) = acc ++ c.filterMap b.db from by simp [workItemsBatch, hc]]
      rw [ih]
      simp [List.filter_cons, hc, List.append_assoc]

lemma fetch_work_items_eq (b : SprintBackend) (ids : List Nat) :
    fetch_work_items b ids =
      (((chunkList ids).filter (fun c => (b.chunkErr c).isNone)).map
        (fun c => c.filterMap b.db)).flatten := by
  rw [fetch_work_items, fetch_aux]
  simp

lemma fetch_aux_len (b : SprintBackend) :
    ∀ (chunks : List (List Nat)) (acc : List WorkItem),
      (chunks.foldl
        (fun acc c =>
          match workItemsBatch b c with
          | .ok v => acc ++ v
          | .error _ => acc) acc).length
      ≤ acc.length + (chunks.map List.length).sum := by
  intro chunks
  induction chunks with
  | nil => intro acc; simp
  | cons c cs ih =>
    intro acc
    simp only [List.foldl_cons, List.map_cons, List.sum_cons]
    refine le_trans (ih _) ?_
    have hstep : (match workItemsBatch b c with
        | .ok v => acc ++ v
        | .error _ => acc).length ≤ acc.length + c.length := by
      cases hc : b.chunkErr c with
      | some e => simp [workItemsBatch, hc]
      | none =>
        simp only [workItemsBatch, hc, List.length_append]
        exact Nat.add_le_add_left (List.length_filterMap_le _ _) _
    omega

lemma fetch_length_le (b : SprintBackend) (ids : List Nat) :
    (fetch_work_items b ids).length ≤ ids.length := by
  have h := fetch_aux_len b (chunkList ids) []
  have hsum : ((chunkList ids).map List.length).sum = ids.length := by
    rw [← List.length_flatten, chunkList, chunkGo_flatten ids.length ids le_rfl]
  rw [fetch_work_items]
  simpa [hsum] using h

lemma scanQuoted_no_quote : ∀ (l : List Char), l.contains sqChar = false →
    scanQuoted (l ++ [sqChar]) = true := by
  intro l
  induction l with
  | nil => intro h; decide
  | cons c cs ih =>
    intro h
    simp only [List.contains_cons, Bool.or_eq_false_iff] at h
    obtain ⟨h1, h2⟩ := h
    have hc : (c == sqChar) = false := by
      cases hcc : c == sqChar with
      | false => rfl
      | true =>
        exfalso
        have : c = sqChar := eq_of_beq hcc
        subst this
        simp at h1
    rw [List.cons_append, scanQuoted.eq_def]
    simp only [hc, Bool.false_eq_true, if_false]
    exact ih h2

lemma quoteLit_data (v : String) : (quoteLit v).data = sqChar :: (v.data ++ [sqChar]) := by
  simp [quoteLit, sqCharStr, String.singleton, String.data_append]

lemma filter_prs_sublist (prs : List PullRequest) (team_id : String)
    (user_id : Option String) :
    List.Sublist (filter_prs_by_reviewer prs team_id user_id) prs := by
  simp only [filter_prs_by_reviewer]
  exact List.filter_sublist prs

/-! ## Claim theorems -/

/-- C1 counterexample: in the Scenario B backend (3 repositories, repo 2's
pull-request query fails, repos 1 and 3 succeed with a matching PR) the
whole run aborts with repo 2's transport error: no partial-failure entry
and no pull requests from repos 1 and 3 appear in any output — even
though, as the second conjunct shows, repo 1's PR passes the reviewer
filter and would have been reported. -/
theorem C1_counterexample :
    get_team_prs_main pfNone 0 (some "pat") c1Backend c1Args
      = .error (RunError.api ⟨500, "boom"⟩)
    ∧ filter_prs_by_reviewer [c1Pr 1] "team-1" none = [c1Pr 1] :=
  ⟨by rfl, by rfl⟩

/-- C1 amended: in the Cross-Repository Aggregator a failure of the
pull-request query for one repository aborts the whole aggregation with
that error; no output, no partial-failure entry and no pull requests from
the other repositories are produced. -/
theorem C1_amended_aborts (pf : String → Option Int) (now : Int)
    (pat : Option String) (b : PrBackend) (a : TeamPrsArgs) (repos : List Repo)
    (hpat : strOptTruthy pat = true)
    (hrepos : b.repositories = .ok repos)
    (hfail : ∃ r ∈ repos, ∃ e, b.pullRequests r.id a.status = .error e) :
    ∃ err, get_team_prs_main pf now pat b a = .error err := by
  obtain ⟨err, hproc⟩ := process_repos_error pf now b a repos hfail
  exact ⟨err, by simp [get_team_prs_main, hpat, hrepos, hproc]⟩

/-- C1 witness: the amended statement evaluated on the Scenario B
instance. -/
theorem C1_amended_aborts_witness :
    ∃ err, get_team_prs_main pfNone 0 (some "tok") c1Backend c1Args = .error err :=
  C1_amended_aborts pfNone 0 (some "tok") c1Backend c1Args
    [⟨"r1", "repo1"⟩, ⟨"r2", "repo2"⟩, ⟨"r3", "repo3"⟩]
    (by decide) rfl ⟨⟨"r2", "repo2"⟩, by decide, ⟨500, "boom"⟩, rfl⟩

set_option maxRecDepth 20000 in
/-- C2 counterexample: for ids `[0..200]` the first chunk request (the
200-id chunk) fails, yet the Batch Fetcher does not fail — it returns the
record from the succeeding second chunk, i.e. a partial result set. -/
theorem C2_counterexample :
    (c2Backend.chunkErr ((List.range 201).take 200)).isSome = true
    ∧ fetch_work_items c2Backend (List.range 201) = [c2wi 200] :=
  ⟨by rfl, by rfl⟩

/-- C2 amended: the batch fetch never fails as a whole; a failing chunk's
records are silently omitted and the records of every succeeding chunk
(those of the requested ids that exist) are returned. -/
theorem C2_amended_partial_results (b : SprintBackend) (ids : List Nat) :
    fetch_work_items b ids =
      (((chunkList ids).filter (fun c => (b.chunkErr c).isNone)).map
        (fun c => c.filterMap b.db)).flatten :=
  fetch_work_items_eq b ids

/-- C3 counterexample: with `unassigned = true` and an assigned-to value
both supplied, the Query Builder does not reject the combination: the
emitted WIQL is exactly the one built with no assigned-to filter, and the
query is executed against the backend and returns records. -/
theorem C3_counterexample :
    buildWiql "proj" "team" "it" none true (some "user@example.com") none
      = buildWiql "proj" "team" "it" none true none none
    ∧ query_work_items c3Backend "proj" "team" "it" none true
        (some "user@example.com") none = [c3wi] :=
  ⟨by rfl, by rfl⟩

/-- C3 amended: when the unassigned flag is true, a supplied assigned-to
value is silently ignored rather than rejected: the emitted query is
identical to the query with no assigned-to constraint, and the request
proceeds as usual. -/
theorem C3_amended_silent_override (project team iteration_path : String)
    (states : Option (List String)) (ato : Option String)
    (wits : Option (List String)) (b : SprintBackend) :
    buildWiql project team iteration_path states true ato wits
      = buildWiql project team iteration_path states true none wits
    ∧ query_work_items b project team iteration_path states true ato wits
      = query_work_items b project team iteration_path states true none wits :=
  ⟨rfl, rfl⟩

set_option maxRecDepth 40000 in
/-- C4: for every id list the Batch Fetcher issues exactly
`⌈N / 200⌉ = (N + 199) / 200` chunk requests, each of at most 200 ids;
the record set has size at most `N`; `N = 0` yields no chunk request and
an empty result; and the ids `[1..250]` are split into exactly two chunks
of sizes 200 and 50. -/
theorem C4_batching (b : SprintBackend) (ids : List Nat) :
    (chunkList ids).length = (ids.length + 199) / 200
    ∧ (chunkList ids).all (fun c => decide (c.length ≤ 200)) = true
    ∧ (fetch_work_items b ids).length ≤ ids.length
    ∧ chunkList [] = []
    ∧ fetch_work_items b [] = []
    ∧ (chunkList (List.range' 1 250)).map List.length = [200, 50] :=
  ⟨chunkGo_length ids.length ids le_rfl, chunkGo_all_le ids.length ids,
   fetch_length_le b ids, rfl, rfl, by rfl⟩

set_option maxRecDepth 100000 in
/-- C5 counterexample: the query the builder emits (here for a plain
team query) contains no `[System.ChangedDate] DESC` tie-breaker at all,
only the priority-ascending clause, so the requested ordering is not
"priority ascending, ties broken by last-changed descending". -/
theorem C5_counterexample :
    strContains (buildWiql "proj" "team" "Sprint 1" none false none none)
      "[System.ChangedDate] DESC" = false
    ∧ strContains (buildWiql "proj" "team" "Sprint 1" none false none none)
      "ORDER BY [Microsoft.VSTS.Common.BacklogPriority] ASC" = true :=
  ⟨by rfl, by rfl⟩

/-- C5 amended: every emitted query ends with the fixed clause
`ORDER BY [Microsoft.VSTS.Common.BacklogPriority] ASC` — ordering by
priority ascending only, with no last-changed tie-breaker in the order
clause. -/
theorem C5_amended_order_clause (project team iteration_path : String)
    (states : Option (List String)) (unassigned : Bool)
    (assigned_to : Option String) (wits : Option (List String)) :
    wiqlOrderBySuffix.data <:+
      (buildWiql project team iteration_path states unassigned assigned_to wits).data
    ∧ strContains wiqlOrderBySuffix "[System.ChangedDate]" = false
    ∧ strContains wiqlOrderBySuffix
        "ORDER BY [Microsoft.VSTS.Common.BacklogPriority] ASC" = true := by
  refine ⟨?_, by rfl, by rfl⟩
  refine ⟨(wiqlHead ++ String.intercalate " AND "
    (buildWhereClauses project team iteration_path states unassigned
      assigned_to wits)).data, ?_⟩
  simp [buildWiql, String.data_append]

set_option maxRecDepth 100000 in
/-- C6 counterexample: a state value containing a quote character
(`O'Brien`) is wrapped in quotes with no escaping, producing a malformed
WIQL literal, and that malformed literal appears verbatim in the emitted
query. -/
theorem C6_counterexample :
    isWellFormedLiteral (quoteLit oBrien).data = false
    ∧ strContains (buildWiql "proj" "team" "it" (some [oBrien]) false none none)
        (quoteLit oBrien) = true :=
  ⟨by rfl, by rfl⟩

/-- C6 amended: the Query Builder wraps literal values in single quotes
without any escaping (the quoted form is exactly
quote-value-quote), so the literal is well-formed exactly when the
value itself contains no quote character; quote-containing values yield
malformed queries. -/
theorem C6_amended_no_escaping (v : String) :
    (quoteLit v).data = sqChar :: (v.data ++ [sqChar])
    ∧ (v.data.contains sqChar = false →
        isWellFormedLiteral (quoteLit v).data = true) := by
  refine ⟨quoteLit_data v, fun h => ?_⟩
  rw [quoteLit_data v, isWellFormedLiteral.eq_def]
  simp [scanQuoted_no_quote v.data h]

/-- C6 witness: the amended statement at a quote-free value. -/
theorem C6_amended_no_escaping_witness :
    (quoteLit "Platform Team").data = sqChar :: (("Platform Team").data ++ [sqChar])
    ∧ isWellFormedLiteral (quoteLit "Platform Team").data = true :=
  ⟨(C6_amended_no_escaping "Platform Team").1,
   (C6_amended_no_escaping "Platform Team").2 (by rfl)⟩

/-- C7 counterexample: the work-item formatter maps a missing
`System.ChangedDate` to a null age (`none`), not to age 0 as the claim
states. -/
theorem C7_counterexample :
    (format_work_item pfNone 0 "org" "proj" c7wi).daysSinceChange ≠ some 0
    ∧ (format_work_item pfNone 0 "org" "proj" c7wi).daysSinceChange = none :=
  ⟨by decide, by rfl⟩

/-- C7 amended: the age computations are total on missing/null
timestamps but with different defaults: the PR formatter yields age 0
(for an absent or empty creation date), while the work-item formatter
yields a null age (`none`) for an empty change date; neither raises. -/
theorem C7_amended_age_defaults (pf : String → Option Int) (now : Int)
    (org project repo_name : String) (pr : PullRequest) (wi : WorkItem) :
    calculate_age_days pf now none = .ok 0
    ∧ calculate_age_days pf now (some "") = .ok 0
    ∧ (∃ f, format_pr pf now { pr with creationDate := none } repo_name = .ok f
        ∧ f.ageDays = 0)
    ∧ (format_work_item pf now org project
        { wi with fields := { wi.fields with changedDate := "" } }).daysSinceChange
      = none :=
  ⟨rfl, rfl, ⟨_, rfl, rfl⟩, rfl⟩

/-- C8: for each of the three entry points, an absent credential (and
likewise an empty one, which Python treats as unset) yields the distinct
not-configured error for every backend and argument set — the result does
not depend on the backend, so no network call can have been attempted. -/
theorem C8_not_configured_gate (pf : String → Option Int) (now : Int)
    (b1 : PrBackend) (a1 : TeamPrsArgs) (b2 : SprintBackend) (a2 : SprintArgs)
    (b3 : PrDiffBackend) (a3 : PrDiffArgs) :
    get_team_prs_main pf now none b1 a1 = .error .notConfigured
    ∧ get_sprint_work_items_main pf now none b2 a2 = .error .notConfigured
    ∧ get_pr_diff_main none b3 a3 = .error .notConfigured
    ∧ get_team_prs_main pf now (some "") b1 a1 = .error .notConfigured
    ∧ get_sprint_work_items_main pf now (some "") b2 a2 = .error .notConfigured
    ∧ get_pr_diff_main (some "") b3 a3 = .error .notConfigured :=
  ⟨rfl, rfl, rfl, rfl, rfl, rfl⟩

/-- C9: reviewer matching is case-insensitive — a pull request in the
input whose reviewer list has an entry whose lower-cased id equals the
lower-cased team id (or the lower-cased truthy user id) is kept by the
reviewer filter. -/
theorem C9_case_insensitive (prs : List PullRequest) (pr : PullRequest)
    (team_id : String) (user_id : Option String) (hmem : pr ∈ prs)
    (hmatch : ∃ r ∈ pr.reviewers,
      strLower r.id = strLower team_id ∨
      ∃ u, user_id = some u ∧ (u == "") = false ∧ strLower r.id = strLower u) :
    pr ∈ filter_prs_by_reviewer prs team_id user_id := by
  obtain ⟨r, hr, hcase⟩ := hmatch
  simp only [filter_prs_by_reviewer]
  refine List.mem_filter.mpr ⟨hmem, List.any_eq_true.mpr ⟨r, hr, ?_⟩⟩
  rcases hcase with hteam | ⟨u, hu, hne, huser⟩
  · cases user_id with
    | none => simp [hteam]
    | some u => cases hu0 : u == "" <;> simp [hu0, hteam]
  · subst hu
    cases hu0 : u == "" with
    | false => simp [hu0, huser]
    | true => rw [hu0] at hne; cases hne

/-- C9 witness: a PR whose reviewer id is `ABC-123` is kept by a filter
for `abc-123`. -/
theorem C9_case_insensitive_witness :
    c9pr ∈ filter_prs_by_reviewer [c9pr] "abc-123" none :=
  C9_case_insensitive [c9pr] c9pr "abc-123" none (List.mem_singleton.mpr rfl)
    ⟨{ id := "ABC-123", displayName := "Rev", vote := 0, isRequired := false },
     by decide, Or.inl (by rfl)⟩

/-- C10: the reviewer filter returns a subsequence of its input — order
preserved, nothing invented — so each input pull request occurs in the
output at most as often as in the input, in particular at most once even
when several of its reviewer entries match. -/
theorem C10_subsequence (prs : List PullRequest) (team_id : String)
    (user_id : Option String) :
    List.Sublist (filter_prs_by_reviewer prs team_id user_id) prs
    ∧ ∀ pr : PullRequest,
        (filter_prs_by_reviewer prs team_id user_id).count pr ≤ prs.count pr :=
  ⟨filter_prs_sublist prs team_id user_id,
   fun pr => (filter_prs_sublist prs team_id user_id).count_le pr⟩
